import Mathlib

/-!
# LDAPS certificate chain retriever — verification of the chain validator

Shallow embedding of `src/ldaps_cert_chain_retriever.py`: the certificate
chain validator (`validate_certificate_chain`, `is_self_signed`), the
certificate formatter (`format_certificate`) and the output-bundle assembly
loop of `main`.

X.509 certificates are opaque external values; per the spec's data model
(§3) a certificate exposes a subject and issuer distinguished name, a
serial number, a validity window, and a canonical binary (DER) encoding
from which a textual (PEM) encoding is derivable.  The external
`cryptography` library's parser and serializer are modelled as an exact
codec: a raw byte-string either is the canonical encoding of exactly one
certificate or is malformed, in which case parsing raises an error carrying
a textual description.
-/

/-- A structured distinguished name: an ordered list of attribute
type/value pairs, compared as a whole (structural equality). -/
structure DN where
  attrs : List (String × String)
deriving DecidableEq

/-- A parsed X.509 certificate, restricted to the fields the program
inspects (spec §3 data model). -/
structure Certificate where
  subject : DN
  issuer : DN
  serialNumber : Int
  notBefore : Int
  notAfter : Int
deriving DecidableEq

/-- A raw DER byte-string handed to the program: either the canonical
binary encoding of one certificate, or malformed bytes that fail to parse
with a given error text. -/
inductive CertDer where
  | wellFormed (cert : Certificate)
  | malformed (err : String)
deriving DecidableEq

/-- A raw PEM text block: either the textual encoding of one certificate,
or malformed text. -/
inductive CertPem where
  | wellFormed (cert : Certificate)
  | malformed (err : String)
deriving DecidableEq

/-- `cryptography.x509.load_der_x509_certificate`: parses DER bytes into a
certificate or raises a parse error (modelled as `Except.error` carrying
`str(e)`). -/
def load_der_x509_certificate : CertDer → Except String Certificate
  | .wellFormed c => .ok c
  | .malformed e => .error e

/-- `cryptography.x509.load_pem_x509_certificate`: parses PEM text into a
certificate or raises a parse error. -/
def load_pem_x509_certificate : CertPem → Except String Certificate
  | .wellFormed c => .ok c
  | .malformed e => .error e

/-- `cert.public_bytes(serialization.Encoding.DER)`: re-serializes a parsed
certificate to its canonical DER bytes. -/
def public_bytes_der (c : Certificate) : CertDer :=
  .wellFormed c

/-- `cert.public_bytes(serialization.Encoding.PEM).decode('utf-8')`:
re-serializes a parsed certificate to its PEM text block (the block carries
its own trailing newline). -/
def public_bytes_pem (c : Certificate) : CertPem :=
  .wellFormed c

/-- `is_self_signed` (src line 58): a certificate is self-signed iff its
issuer equals its subject (structural DN equality). -/
def is_self_signed (cert : Certificate) : Bool :=
  decide (cert.issuer = cert.subject)

/-- The list comprehension
`[x509.load_der_x509_certificate(cert, default_backend()) for cert in cert_ders]`
(src line 118): loads every certificate left to right, stopping at the
first parse failure. -/
def loadAll : List CertDer → Except String (List Certificate)
  | [] => .ok []
  | d :: rest =>
    match load_der_x509_certificate d with
    | .error e => .error e
    | .ok c =>
      match loadAll rest with
      | .error e => .error e
      | .ok cs => .ok (c :: cs)

/-- The pair-checking loop of `validate_certificate_chain` (src lines
126–138) together with the final last-certificate check (src lines
140–144), as a recursion over the remaining certificates.  The first
argument is the absolute position `i` of the head of the remaining list.
The `[]` case is unreachable from `validate_certificate_chain`, which
rejects the empty chain up front. -/
def checkFrom : Nat → List Certificate → Bool × String
  | _, [] => (true, "Certificate chain is valid and properly ordered")
  | _, [c] =>
    if is_self_signed c then
      (true, "Certificate chain is valid and ends with self-signed root CA")
    else
      (true, "Certificate chain is valid and properly ordered")
  | i, c1 :: c2 :: rest =>
    if c1.issuer = c2.subject then
      checkFrom (i + 1) (c2 :: rest)
    else if is_self_signed c1 then
      (true, "Chain contains self-signed certificate at position " ++ toString i)
    else
      (false, "Certificate chain broken at position " ++ toString i ++
        ": issuer does not match next certificate's subject")

/-- Body of `validate_certificate_chain` after the certificates have been
loaded (src lines 121–144): the single self-signed certificate special
case, then the pair loop and the tail check. -/
def validateLoaded (certs : List Certificate) : Bool × String :=
  match certs with
  | [c] =>
    if is_self_signed c then (true, "Valid self-signed certificate")
    else checkFrom 0 [c]
  | other => checkFrom 0 other

/-- `validate_certificate_chain` (src lines 101–147): empty-chain check,
then a `try` block that loads all certificates and runs the pair loop;
any exception raised inside the `try` is converted to
`(False, "Error validating certificate chain: " + str(e))`. -/
def validate_certificate_chain (cert_ders : List CertDer) : Bool × String :=
  match cert_ders with
  | [] => (false, "No certificates found in chain")
  | _ =>
    match loadAll cert_ders with
    | .error e => (false, "Error validating certificate chain: " ++ e)
    | .ok certs => validateLoaded certs

/-- Errors `format_certificate` can raise: the `ValueError` for an
unsupported format (src line 284: the spec's `UnsupportedFormatError`),
and a parse error from `load_der_x509_certificate` (src line 278). -/
inductive FormatError where
  | unsupportedFormat (msg : String)
  | parseError (e : String)
deriving DecidableEq

/-- The value returned by `format_certificate`: PEM text for
`format='pem'`, DER bytes for `format='der'`. -/
inductive FormatResult where
  | pem (text : CertPem)
  | der (bytes : CertDer)
deriving DecidableEq

/-- `format_certificate` (src lines 262–284): parse the DER bytes, then
re-serialize in the requested format; any other format raises
`ValueError(f"Unsupported format: \x7bformat\x7d")`. -/
def format_certificate (cert_data : CertDer) (fmt : String) :
    Except FormatError FormatResult :=
  match load_der_x509_certificate cert_data with
  | .error e => .error (.parseError e)
  | .ok cert =>
    if fmt = "pem" then .ok (.pem (public_bytes_pem cert))
    else if fmt = "der" then .ok (.der (public_bytes_der cert))
    else .error (.unsupportedFormat ("Unsupported format: " ++ fmt))

/-- The assembled output bundle of `main`: in PEM mode a text that is a
concatenation of PEM blocks (each block carrying its own trailing
newline), in DER mode a byte-string that is a direct concatenation of the
DER byte-strings of the certificates. -/
inductive Bundle where
  | pemText (blocks : List CertPem)
  | derBytes (bytes : List CertDer)
deriving DecidableEq

/-- The initial `bundle = format_certificate(peer, fmt)` value of `main`
(src line 352) viewed as a one-element bundle. -/
def toBundle : FormatResult → Bundle
  | .pem t => .pemText [t]
  | .der d => .derBytes [d]

/-- `bundle += format_certificate(cert, fmt)` (src line 355): appends one
formatted certificate to the bundle.  Within a single run `fmt` is fixed,
so the mixed-encoding cases never arise; they leave the bundle unchanged. -/
def bundleAppend : Bundle → FormatResult → Bundle
  | .pemText ts, .pem t => .pemText (ts ++ [t])
  | .derBytes ds, .der d => .derBytes (ds ++ [d])
  | b, _ => b

/-- `bundle += cert` in DER mode (src line 357): appends the raw DER bytes
directly.  In PEM mode this branch is never taken. -/
def bundleAppendRaw : Bundle → CertDer → Bundle
  | .derBytes ds, d => .derBytes (ds ++ [d])
  | .pemText ts, _ => .pemText ts

/-- The bundle-assembly loop of `main` (src lines 353–357): for each chain
certificate, in PEM mode re-format it and append, in DER mode append its
raw bytes. -/
def assemble_loop (fmt : String) (bundle : Bundle) :
    List CertDer → Except FormatError Bundle
  | [] => .ok bundle
  | cert :: rest =>
    if fmt = "pem" then
      match format_certificate cert fmt with
      | .error e => .error e
      | .ok out => assemble_loop fmt (bundleAppend bundle out) rest
    else
      assemble_loop fmt (bundleAppendRaw bundle cert) rest

/-- `main`'s bundle assembly (src lines 352–357): format the peer
certificate, then fold the chain certificates into the bundle. -/
def assemble_bundle (fmt : String) (peer : CertDer) (chain : List CertDer) :
    Except FormatError Bundle :=
  match format_certificate peer fmt with
  | .error e => .error e
  | .ok out => assemble_loop fmt (toBundle out) chain

/-! Concrete certificates used as witnesses and counterexamples. -/

/-- DN with common name `a`. -/
def dnA : DN := ⟨[("CN", "a")]⟩

/-- DN with common name `b`. -/
def dnB : DN := ⟨[("CN", "b")]⟩

/-- DN with common name `c`. -/
def dnC : DN := ⟨[("CN", "c")]⟩

/-- DN with common name `d`. -/
def dnD : DN := ⟨[("CN", "d")]⟩

/-- DN with common name `e`. -/
def dnE : DN := ⟨[("CN", "e")]⟩

/-- A self-signed certificate on `dnA` (issuer = subject = `dnA`). -/
def certX : Certificate := ⟨dnA, dnA, 1, 0, 10⟩

/-- A certificate with subject `dnB` and issuer `dnC` (not self-signed). -/
def certY : Certificate := ⟨dnB, dnC, 2, 0, 10⟩

/-- A certificate with subject `dnD` and issuer `dnE` (not self-signed). -/
def certZ : Certificate := ⟨dnD, dnE, 3, 0, 10⟩

/-- A certificate with subject `dnA` and issuer `dnB` (not self-signed). -/
def certP : Certificate := ⟨dnA, dnB, 4, 0, 10⟩

/-- A certificate with subject `dnB` and issuer `dnC` (not self-signed),
the issuing certificate of `certP`. -/
def certQ : Certificate := ⟨dnB, dnC, 5, 0, 10⟩

/-- A self-signed certificate on `dnB`. -/
def certW : Certificate := ⟨dnB, dnB, 6, 0, 10⟩

/-! ## Basic lemmas -/

/-- Loading a list of well-formed DER byte-strings recovers exactly the
encoded certificates. -/
theorem loadAll_map_wellFormed (certs : List Certificate) :
    loadAll (certs.map CertDer.wellFormed) = .ok certs := by
  induction certs with
  | nil => rfl
  | cons c cs ih => simp [loadAll, load_der_x509_certificate, ih]

/-- On a chain of well-formed byte-strings, `validate_certificate_chain`
reduces to the loaded-certificate validator. -/
theorem validate_map_wellFormed (certs : List Certificate) (hne : certs ≠ []) :
    validate_certificate_chain (certs.map CertDer.wellFormed) =
      validateLoaded certs := by
  cases certs with
  | nil => exact absurd rfl hne
  | cons c cs =>
    have h := loadAll_map_wellFormed (c :: cs)
    simp only [List.map_cons] at h
    simp [validate_certificate_chain, h]

/-- On a chain of at least two certificates, the loaded-certificate
validator is the pair loop started at position 0. -/
theorem validateLoaded_cons_cons (c1 c2 : Certificate) (rest : List Certificate) :
    validateLoaded (c1 :: c2 :: rest) = checkFrom 0 (c1 :: c2 :: rest) := rfl

/-- The pair loop at a first mismatch: if positions `i` and `i + 1` hold
certificates `a` and `b`, every earlier adjacent pair matches, and
`a.issuer ≠ b.subject`, then the loop stops there and reports position
`k + i` (where `k` is the absolute position of the head). -/
theorem checkFrom_first_mismatch :
    ∀ (certs : List Certificate) (k i : Nat) (a b : Certificate),
      certs[i]? = some a → certs[i + 1]? = some b →
      (∀ j a' b', j < i → certs[j]? = some a' → certs[j + 1]? = some b' →
        a'.issuer = b'.subject) →
      a.issuer ≠ b.subject →
      checkFrom k certs =
        if is_self_signed a then
          (true, "Chain contains self-signed certificate at position " ++
            toString (k + i))
        else
          (false, "Certificate chain broken at position " ++ toString (k + i) ++
            ": issuer does not match next certificate's subject") := by
  intro certs
  induction certs with
  | nil =>
    intro k i a b ha
    simp at ha
  | cons c1 rest ih =>
    intro k i a b ha hb hpre hmis
    cases rest with
    | nil =>
      rcases i with _ | i' <;> simp at hb
    | cons c2 rest2 =>
      cases i with
      | zero =>
        have ha' : c1 = a := by simpa using ha
        have hb' : c2 = b := by simpa using hb
        subst ha'
        subst hb'
        simp only [checkFrom, if_neg hmis, Nat.add_zero]
      | succ i' =>
        have hstep : c1.issuer = c2.subject :=
          hpre 0 c1 c2 (Nat.succ_pos i') (by simp) (by simp)
        have ha' : (c2 :: rest2)[i']? = some a := by simpa using ha
        have hb' : (c2 :: rest2)[i' + 1]? = some b := by simpa using hb
        have hpre' : ∀ j a' b', j < i' → (c2 :: rest2)[j]? = some a' →
            (c2 :: rest2)[j + 1]? = some b' → a'.issuer = b'.subject := by
          intro j a' b' hj hja hjb
          exact hpre (j + 1) a' b' (Nat.succ_lt_succ hj)
            (by simpa using hja) (by simpa using hjb)
        have hrec := ih (k + 1) i' a b ha' hb' hpre' hmis
        have harith : k + 1 + i' = k + (i' + 1) := by omega
        simp only [checkFrom, if_pos hstep, hrec, harith]

/-- `validate_certificate_chain` at a first mismatch on a well-formed
chain: it stops at position `i` and reports a self-signed escape or a
broken chain according to `is_self_signed` of the left certificate. -/
theorem validate_first_mismatch (certs : List Certificate) (i : Nat)
    (a b : Certificate)
    (ha : certs[i]? = some a) (hb : certs[i + 1]? = some b)
    (hpre : ∀ j a' b', j < i → certs[j]? = some a' →
      certs[j + 1]? = some b' → a'.issuer = b'.subject)
    (hmis : a.issuer ≠ b.subject) :
    validate_certificate_chain (certs.map CertDer.wellFormed) =
      if is_self_signed a then
        (true, "Chain contains self-signed certificate at position " ++
          toString i)
      else
        (false, "Certificate chain broken at position " ++ toString i ++
          ": issuer does not match next certificate's subject") := by
  match certs with
  | [] => simp at ha
  | [c] => rcases i with _ | i' <;> simp at hb
  | c1 :: c2 :: rest =>
    rw [validate_map_wellFormed _ (by simp), validateLoaded_cons_cons,
      checkFrom_first_mismatch (c1 :: c2 :: rest) 0 i a b ha hb hpre hmis]
    simp only [Nat.zero_add]

/-- The pair loop when every adjacent pair matches: it runs to the end and
the verdict depends only on whether the last certificate is self-signed. -/
theorem checkFrom_all_match :
    ∀ (certs : List Certificate) (k : Nat) (c : Certificate),
      certs.getLast? = some c →
      (∀ i a b, certs[i]? = some a → certs[i + 1]? = some b →
        a.issuer = b.subject) →
      checkFrom k certs =
        if is_self_signed c then
          (true, "Certificate chain is valid and ends with self-signed root CA")
        else
          (true, "Certificate chain is valid and properly ordered") := by
  intro certs
  induction certs with
  | nil =>
    intro k c hlast
    simp at hlast
  | cons c1 rest ih =>
    intro k c hlast hall
    cases rest with
    | nil =>
      have hc : c1 = c := by simpa using hlast
      subst hc
      rfl
    | cons c2 rest2 =>
      have hstep : c1.issuer = c2.subject := hall 0 c1 c2 (by simp) (by simp)
      have hlast' : (c2 :: rest2).getLast? = some c := by
        simpa [List.getLast?_cons_cons] using hlast
      have hall' : ∀ i a b, (c2 :: rest2)[i]? = some a →
          (c2 :: rest2)[i + 1]? = some b → a.issuer = b.subject := by
        intro i a b hia hib
        exact hall (i + 1) a b (by simpa using hia) (by simpa using hib)
      simp only [checkFrom, if_pos hstep]
      exact ih (k + 1) c hlast' hall'

/-- The pair loop on a chain of self-signed certificates never reports an
invalid chain: every exit of the loop is a valid verdict. -/
theorem checkFrom_all_self_signed :
    ∀ (certs : List Certificate) (k : Nat),
      (∀ c ∈ certs, is_self_signed c = true) →
      (checkFrom k certs).fst = true := by
  intro certs
  induction certs with
  | nil => intro k _; rfl
  | cons c1 rest ih =>
    intro k hall
    cases rest with
    | nil =>
      by_cases hss : is_self_signed c1 = true <;> simp [checkFrom, hss]
    | cons c2 rest2 =>
      by_cases hstep : c1.issuer = c2.subject
      · simp only [checkFrom, if_pos hstep]
        exact ih (k + 1) (fun c hc => hall c (List.mem_cons_of_mem c1 hc))
      · have hss : is_self_signed c1 = true := hall c1 (List.mem_cons_self c1 (c2 :: rest2))
        simp [checkFrom, if_neg hstep, hss]

/-- The PEM branch of the bundle loop appends one PEM block per chain
certificate, in order. -/
theorem assemble_loop_pem :
    ∀ (chain : List Certificate) (ts : List CertPem),
      assemble_loop "pem" (.pemText ts) (chain.map CertDer.wellFormed) =
        .ok (.pemText (ts ++ chain.map CertPem.wellFormed)) := by
  intro chain
  induction chain with
  | nil => intro ts; simp [assemble_loop]
  | cons c cs ih =>
    intro ts
    simp [assemble_loop, format_certificate, load_der_x509_certificate,
      public_bytes_pem, bundleAppend, ih]

/-- The DER branch of the bundle loop appends the raw DER byte-strings
directly, in order, without re-parsing them. -/
theorem assemble_loop_der :
    ∀ (chain ds : List CertDer),
      assemble_loop "der" (.derBytes ds) chain = .ok (.derBytes (ds ++ chain)) := by
  intro chain
  induction chain with
  | nil => intro ds; simp [assemble_loop]
  | cons d rest ih =>
    intro ds
    simp [assemble_loop, bundleAppendRaw, ih]

/-! ## Claims -/

/-- C1 (counterexample): the claimed invariant fails as stated.  The chain
`[certX, certY, certZ]` is accepted (the self-signed `certX` at the first
mismatch short-circuits validation), yet the later pair
`(certY, certZ)` has a non-self-signed left certificate whose issuer does
not match the next certificate's subject — that pair is never examined. -/
theorem C1_invariant_counterexample :
    (validate_certificate_chain
      [.wellFormed certX, .wellFormed certY, .wellFormed certZ]).fst = true ∧
    is_self_signed certY = false ∧
    certY.issuer ≠ certZ.subject := by
  refine ⟨rfl, rfl, ?_⟩
  decide

/-- C1 (amended): for every chain accepted by `validate_certificate_chain`,
every adjacent pair `(cert[i], cert[i+1])` such that all earlier adjacent
pairs match and `cert[i]` is not self-signed satisfies
`cert[i].issuer = cert[i+1].subject`; pairs beyond a self-signed
short-circuit are not constrained. -/
theorem C1_valid_chain_link_invariant (certs : List Certificate) (i : Nat)
    (a b : Certificate)
    (hvalid : (validate_certificate_chain (certs.map CertDer.wellFormed)).fst
      = true)
    (ha : certs[i]? = some a) (hb : certs[i + 1]? = some b)
    (hpre : ∀ j a' b', j < i → certs[j]? = some a' →
      certs[j + 1]? = some b' → a'.issuer = b'.subject)
    (hss : is_self_signed a = false) :
    a.issuer = b.subject := by
  by_contra hmis
  rw [validate_first_mismatch certs i a b ha hb hpre hmis, hss] at hvalid
  simp at hvalid

/-- C1 (witness): the amended invariant applied to the accepted two-element
chain `[certP, certQ]` at position 0. -/
theorem C1_valid_chain_link_invariant_witness :
    certP.issuer = certQ.subject :=
  C1_valid_chain_link_invariant [certP, certQ] 0 certP certQ
    (by decide) (by decide) (by decide)
    (fun j a' b' hj => absurd hj (Nat.not_lt_zero j))
    (by decide)

/-- C2: `validate_certificate_chain` never lets a parse failure escape: on
any non-empty input on which loading the certificates fails with error
text `e`, it returns `(false, "Error validating certificate chain: " ++ e)`. -/
theorem C2_parse_error_caught (cert_ders : List CertDer) (e : String)
    (hne : cert_ders ≠ [])
    (herr : loadAll cert_ders = .error e) :
    validate_certificate_chain cert_ders =
      (false, "Error validating certificate chain: " ++ e) := by
  cases cert_ders with
  | nil => exact absurd rfl hne
  | cons d rest => simp [validate_certificate_chain, herr]

/-- C2 (witness): a chain containing one malformed byte-string is reported
as an invalid result wrapping the parse error text. -/
theorem C2_parse_error_caught_witness :
    validate_certificate_chain [.malformed "bad"] =
      (false, "Error validating certificate chain: bad") :=
  C2_parse_error_caught [.malformed "bad"] "bad" (by simp) rfl

/-- C5: on a chain of exactly one well-formed certificate,
`validate_certificate_chain` returns `(true, "Valid self-signed
certificate")` when subject equals issuer and `(true, "Certificate chain is
valid and properly ordered")` otherwise. -/
theorem C5_singleton_chain (c : Certificate) :
    validate_certificate_chain [.wellFormed c] =
      if is_self_signed c then (true, "Valid self-signed certificate")
      else (true, "Certificate chain is valid and properly ordered") := by
  cases hss : is_self_signed c <;>
    simp [validate_certificate_chain, loadAll, load_der_x509_certificate,
      validateLoaded, checkFrom, hss]

/-- C6: the empty chain is rejected with the fixed message, before any
certificate is parsed. -/
theorem C6_empty_chain :
    validate_certificate_chain [] = (false, "No certificates found in chain") :=
  rfl

/-- C3: at the first adjacent mismatch (position `i`, all earlier pairs
matching), `validate_certificate_chain` stops and returns the self-signed
escape verdict when `cert[i]` is self-signed, and the broken-chain verdict
otherwise, each naming position `i`. -/
theorem C3_stops_at_first_mismatch (certs : List Certificate) (i : Nat)
    (a b : Certificate)
    (ha : certs[i]? = some a) (hb : certs[i + 1]? = some b)
    (hpre : ∀ j a' b', j < i → certs[j]? = some a' →
      certs[j + 1]? = some b' → a'.issuer = b'.subject)
    (hmis : a.issuer ≠ b.subject) :
    validate_certificate_chain (certs.map CertDer.wellFormed) =
      if is_self_signed a then
        (true, "Chain contains self-signed certificate at position " ++
          toString i)
      else
        (false, "Certificate chain broken at position " ++ toString i ++
          ": issuer does not match next certificate's subject") :=
  validate_first_mismatch certs i a b ha hb hpre hmis

/-- C3 (witness): the chain `[certY, certZ]` mismatches at position 0 with
a non-self-signed `certY`, so validation reports a broken chain there. -/
theorem C3_stops_at_first_mismatch_witness :
    validate_certificate_chain [.wellFormed certY, .wellFormed certZ] =
      (false,
        "Certificate chain broken at position 0: issuer does not match next certificate's subject") := by
  have h := C3_stops_at_first_mismatch [certY, certZ] 0 certY certZ
    (by decide) (by decide)
    (fun j a' b' hj => absurd hj (Nat.not_lt_zero j))
    (by decide)
  simpa using h

/-- C4: on a chain of length at least two in which every adjacent pair
matches, validation succeeds, reporting a self-signed root CA when the last
certificate is self-signed and a properly ordered chain otherwise. -/
theorem C4_ordered_chain_verdict (certs : List Certificate) (c : Certificate)
    (hlen : 2 ≤ certs.length)
    (hall : ∀ i a b, certs[i]? = some a → certs[i + 1]? = some b →
      a.issuer = b.subject)
    (hlast : certs.getLast? = some c) :
    validate_certificate_chain (certs.map CertDer.wellFormed) =
      if is_self_signed c then
        (true, "Certificate chain is valid and ends with self-signed root CA")
      else
        (true, "Certificate chain is valid and properly ordered") := by
  cases certs with
  | nil => simp at hlen
  | cons c1 rest =>
    cases rest with
    | nil => simp at hlen
    | cons c2 rest2 =>
      rw [validate_map_wellFormed _ (by simp), validateLoaded_cons_cons,
        checkFrom_all_match (c1 :: c2 :: rest2) 0 c hlast hall]

/-- C4 (witness): the matching chain `[certP, certW]` ends in the
self-signed `certW`, so validation reports a self-signed root CA. -/
theorem C4_ordered_chain_verdict_witness :
    validate_certificate_chain [.wellFormed certP, .wellFormed certW] =
      (true, "Certificate chain is valid and ends with self-signed root CA") := by
  have h := C4_ordered_chain_verdict [certP, certW] certW (by simp)
    (by
      intro i a b hia hib
      rcases i with _ | j
      · obtain rfl : certP = a := by simpa using hia
        obtain rfl : certW = b := by simpa using hib
        decide
      · rcases j with _ | j <;> simp at hib)
    (by simp)
  simpa using h

/-- C10: any non-empty chain in which every certificate is self-signed is
accepted, whether or not adjacent issuer/subject pairs match. -/
theorem C10_all_self_signed_valid (certs : List Certificate)
    (hne : certs ≠ [])
    (hall : ∀ c ∈ certs, is_self_signed c = true) :
    (validate_certificate_chain (certs.map CertDer.wellFormed)).fst = true := by
  rw [validate_map_wellFormed certs hne]
  cases certs with
  | nil => exact absurd rfl hne
  | cons c1 rest =>
    cases rest with
    | nil =>
      have hss := hall c1 (List.mem_cons_self c1 [])
      simp [validateLoaded, hss]
    | cons c2 rest2 =>
      rw [validateLoaded_cons_cons]
      exact checkFrom_all_self_signed (c1 :: c2 :: rest2) 0 hall

/-- C10 (witness): the chain `[certX, certW]` of two self-signed
certificates with mismatching adjacent issuer/subject is accepted. -/
theorem C10_all_self_signed_valid_witness :
    (validate_certificate_chain
      [.wellFormed certX, .wellFormed certW]).fst = true := by
  have h := C10_all_self_signed_valid [certX, certW] (by simp) (by decide)
  simpa using h

/-- C7: on well-formed certificate bytes, `format_certificate` raises the
unsupported-format error (the `ValueError` of src line 284, uncaught)
exactly when the requested format is neither `pem` nor `der`, and returns
normally for `pem` and `der`. -/
theorem C7_unsupported_format (c : Certificate) (fmt : String) :
    (fmt ≠ "pem" ∧ fmt ≠ "der" →
      format_certificate (.wellFormed c) fmt =
        .error (.unsupportedFormat ("Unsupported format: " ++ fmt))) ∧
    (fmt = "pem" ∨ fmt = "der" →
      ∃ out, format_certificate (.wellFormed c) fmt = .ok out) := by
  constructor
  · rintro ⟨h1, h2⟩
    simp [format_certificate, load_der_x509_certificate, h1, h2]
  · rintro (rfl | rfl)
    · exact ⟨.pem (.wellFormed c), rfl⟩
    · exact ⟨.der (.wellFormed c), rfl⟩

/-- C7 (witness): the format `txt` is rejected with the unsupported-format
error, while `pem` succeeds, on the well-formed bytes of `certP`. -/
theorem C7_unsupported_format_witness :
    format_certificate (.wellFormed certP) "txt" =
      .error (.unsupportedFormat "Unsupported format: txt") ∧
    ∃ out, format_certificate (.wellFormed certP) "pem" = .ok out := by
  constructor
  · exact (C7_unsupported_format certP "txt").1 (by decide)
  · exact (C7_unsupported_format certP "pem").2 (Or.inl rfl)

/-- C8: re-encoding a well-formed certificate to DER, re-encoding that
output to PEM, and parsing the PEM yields a certificate with the same
subject, issuer, serial number and validity window as the original. -/
theorem C8_der_pem_round_trip (c : Certificate) :
    ∃ derOut pemOut c2,
      format_certificate (.wellFormed c) "der" = .ok (.der derOut) ∧
      format_certificate derOut "pem" = .ok (.pem pemOut) ∧
      load_pem_x509_certificate pemOut = .ok c2 ∧
      c2.subject = c.subject ∧ c2.issuer = c.issuer ∧
      c2.serialNumber = c.serialNumber ∧
      c2.notBefore = c.notBefore ∧ c2.notAfter = c.notAfter :=
  ⟨.wellFormed c, .wellFormed c, c, rfl, rfl, rfl, rfl, rfl, rfl, rfl, rfl⟩

/-- C9: for any retrieved leaf plus chain certificates, the assembled
bundle is, in PEM mode, the leaf's PEM block followed by each chain
certificate's PEM block in order, and, in DER mode, the leaf's DER bytes
followed by each chain certificate's raw DER bytes concatenated directly
in order. -/
theorem C9_bundle_assembly (leaf : Certificate) (chain : List Certificate) :
    assemble_bundle "pem" (.wellFormed leaf) (chain.map CertDer.wellFormed) =
      .ok (.pemText ((leaf :: chain).map CertPem.wellFormed)) ∧
    assemble_bundle "der" (.wellFormed leaf) (chain.map CertDer.wellFormed) =
      .ok (.derBytes ((leaf :: chain).map CertDer.wellFormed)) := by
  constructor
  · have h := assemble_loop_pem chain [CertPem.wellFormed leaf]
    simpa [assemble_bundle, format_certificate, load_der_x509_certificate,
      public_bytes_pem, toBundle] using h
  · have h := assemble_loop_der (chain.map CertDer.wellFormed)
      [CertDer.wellFormed leaf]
    simpa [assemble_bundle, format_certificate, load_der_x509_certificate,
      public_bytes_der, toBundle] using h
